import Mathlib

/-!
Verification development for the buildroot lifecycle manager
(`mockbuild/buildroot.py`): a chroot-style sandbox with path resolution,
advisory locking, idempotent initialization, residual-mount cleanup and
build-user bootstrap.

The Python source is shallowly embedded: pure string manipulation is
modelled on `String` (via character-list primitives mirroring the Python
`str` operations the source uses), the stateful lifecycle operations are
modelled as explicit state-passing functions returning the new state
together with an optional raised error, and filesystem/process side
effects are recorded as action traces.
-/

namespace Buildroot

/-! ## String primitives

Character-list implementations of the Python `str` operations used by
`buildroot.py`: `startswith`, slicing `[1:]`/`[2:]`, `split(sep)`,
`split()`, `strip()`, `endswith`, `':'.join(...)`. -/

/-- Python `s.startswith(pre)`. -/
def strStartsWith (s pre : String) : Bool :=
  pre.data.isPrefixOf s.data

/-- Python `s.endswith(suf)`. -/
def strEndsWith (s suf : String) : Bool :=
  suf.data.isSuffixOf s.data

/-- Python `s[n:]`. -/
def strDrop (s : String) (n : Nat) : String :=
  ⟨s.data.drop n⟩

/-- Helper for `strSplit`: accumulates the current field (reversed). -/
def strSplitAux (sep : Char) : List Char → List Char → List String
  | [], cur => [⟨cur.reverse⟩]
  | c :: cs, cur =>
      if c = sep then ⟨cur.reverse⟩ :: strSplitAux sep cs []
      else strSplitAux sep cs (c :: cur)

/-- Python `s.split(sep)` for a one-character separator: splits at every
occurrence, keeping empty fields. -/
def strSplit (s : String) (sep : Char) : List String :=
  strSplitAux sep s.data []

/-- Python `sep.join(parts)` for a one-character separator. -/
def strJoin (sep : Char) : List String → String
  | [] => ""
  | [x] => x
  | x :: xs => x ++ ⟨[sep]⟩ ++ strJoin sep xs

/-- Drop leading whitespace characters. -/
def dropWS : List Char → List Char
  | [] => []
  | c :: cs => if c.isWhitespace then dropWS cs else c :: cs

/-- Python `s.strip()`: remove leading and trailing whitespace. -/
def pyStrip (s : String) : String :=
  ⟨(dropWS (dropWS s.data).reverse).reverse⟩

/-- Python `s.split()` (no argument): split on whitespace runs, discarding
empty fields. -/
def strSplitWS (s : String) : List String :=
  (strSplit s ' ').filter (fun f => f ≠ "")

end Buildroot

namespace Buildroot

/-! ## Path resolution (`make_chroot_path`)

Python source:
```
def make_chroot_path(self, *paths):
    new_path = self.rootdir
    for path in paths:
        if path.startswith('/'):
            path = path[1:]
        new_path = os.path.join(new_path, path)
    return new_path
```
`os.path.join` (POSIX) discards everything accumulated so far when the
next component is absolute; otherwise it appends, inserting `/` unless
the accumulator is empty or already ends in `/`. -/

/-- `path[1:]` applied when `path.startswith('/')`. -/
def stripLeadingSlash (p : String) : String :=
  if strStartsWith p "/" then strDrop p 1 else p

/-- POSIX `os.path.join` for two components. -/
def ospJoin (a b : String) : String :=
  if strStartsWith b "/" then b
  else if a = "" then b
  else if strEndsWith a "/" then a ++ b
  else a ++ "/" ++ b

/-- `Buildroot.make_chroot_path(*paths)`: start from `self.rootdir` and
join each argument after stripping a single leading slash. -/
def make_chroot_path (rootdir : String) (paths : List String) : String :=
  paths.foldl (fun acc p => ospJoin acc (stripLeadingSlash p)) rootdir

/-! ## Path canonicalization

`os.path.realpath` semantics restricted to what the claims need: split on
`/`, drop empty components and `.`, and let `..` pop the last component
(at the root, `..` stays at the root).  Symlink resolution is not
modelled; on a symlink-free filesystem `realpath` is exactly this
normalization. -/

/-- Split a path into its non-empty components. -/
def splitComps (p : String) : List String :=
  (strSplit p '/').filter (fun c => c ≠ "")

/-- Resolve `.` and `..` components the way the kernel resolves an
absolute path. -/
def normComps (cs : List String) : List String :=
  cs.foldl
    (fun acc c =>
      if c = "." then acc
      else if c = ".." then acc.dropLast
      else acc ++ [c]) []

/-- Canonical string form of an absolute path (`os.path.realpath` on a
symlink-free filesystem). -/
def realpath (p : String) : String :=
  "/" ++ strJoin '/' (normComps (splitComps p))

/-- `p`, once resolved by the OS, lies strictly below directory `root`. -/
def resolvedUnder (root p : String) : Bool :=
  (normComps (splitComps root)).isPrefixOf (normComps (splitComps p))
    && (normComps (splitComps root)).length < (normComps (splitComps p)).length

end Buildroot

namespace Buildroot

/-! ## Lifecycle state machine

`initialize` / `delete` are modelled as explicit state-passing functions.
A Python exception is modelled as a `some err` second component together
with the state reached when it was raised; `try/except/finally` is
translated by following each control path of the source.

The behaviour of another process concurrently holding the advisory lock
is abstracted as `LockContention`, fixed for the duration of one call:
`free` (no other holder: both lock modes succeed), `otherShared`
(another process holds a shared lock: an exclusive `fcntl.lockf` fails,
a shared one succeeds), `otherExclusive` (another process holds an
exclusive lock: both modes fail).  Holding our own exclusive lock, the
downgrade conversion to shared always succeeds. -/

inductive LockMode
  | shared
  | exclusive
deriving DecidableEq

inductive LockContention
  | free
  | otherShared
  | otherExclusive
deriving DecidableEq

/-- A non-blocking exclusive `lockf` succeeds iff nobody else holds the
lock in any mode. -/
def exclAvail : LockContention → Bool
  | .free => true
  | _ => false

/-- A non-blocking shared `lockf` succeeds iff nobody else holds the lock
exclusively. -/
def sharedAvail : LockContention → Bool
  | .otherExclusive => false
  | _ => true

inductive Err
  | buildRootLocked
deriving DecidableEq

/-- Observable state of one `Buildroot` object and its sandbox. -/
structure St where
  basedirExists : Bool
  markerPresent : Bool
  lockFileOpen : Bool
  lockHeld : Option LockMode
  loggingInitialized : Bool
  logAttachCount : Nat
  chroot_was_initialized : Bool
deriving DecidableEq

/-- Side effects of the lifecycle operations, recorded in call order. -/
inductive Action
  | umountResidual
  | stateStart
  | preinit
  | setupDirs
  | setupDevices
  | setupFiles
  | mountAll
  | attachLogHandlers
  | resolverConfig
  | dbusUuid
  | auxFiles
  | timezone
  | pkgManagement
  | makeBuildUser
  | setupBuildDirs
  | touchMarker
  | postinit
  | stateFinish
  | orphansKill
  | umountAllMounts
  | rmtreeBase
deriving DecidableEq

/-- `Buildroot._lock_buildroot(exclusive)`: lazily open
`<basedir>/buildroot.lock` (creating the base directory), then attempt a
non-blocking `fcntl.lockf`; on contention raise `BuildRootLocked`. -/
def lock_buildroot (env : LockContention) (st : St) (exclusive : Bool) :
    St × Option Err :=
  let st1 : St := { st with lockFileOpen := true, basedirExists := true }
  if exclusive then
    if exclAvail env then ({ st1 with lockHeld := some .exclusive }, none)
    else (st1, some .buildRootLocked)
  else
    if sharedAvail env || st1.lockHeld = some LockMode.exclusive then
      ({ st1 with lockHeld := some .shared }, none)
    else (st1, some .buildRootLocked)

/-- `Buildroot._resetLogging()`: if `self.logging_initialized` return
immediately; otherwise set the flag and attach the three file handlers
(the privilege drop around the attachment is modelled separately, see
the `Priv` section). -/
def resetLogging (st : St) : St × List Action :=
  if st.loggingInitialized then (st, [])
  else
    ({ st with loggingInitialized := true,
               logAttachCount := st.logAttachCount + 1 },
     [.attachLogHandlers])

/-- `Buildroot._init()`.  `hook` abstracts the effect the `preinit`
plugin hooks may have on the presence of the `.initialized` marker file
(a plugin may create or remove the sandbox); the setup helpers are
assumed not to raise (this model settles the control flow, not their
internal failures). -/
def init_buildroot (hook : Bool → Bool) (st : St) : St × List Action :=
  let st1 : St := { st with chroot_was_initialized := st.markerPresent }
  let marker1 := hook st1.markerPresent
  let st2 : St := { st1 with markerPresent := marker1,
                             chroot_was_initialized := marker1 }
  let pre : List Action := [.umountResidual, .stateStart, .preinit]
  if marker1 then
    ({ st2 with markerPresent := true },
     pre ++ [.setupDevices, .mountAll, .touchMarker, .postinit, .stateFinish])
  else
    let (st3, trLog) := resetLogging st2
    ({ st3 with markerPresent := true },
     pre ++ [.setupDirs, .setupDevices, .setupFiles, .mountAll] ++ trLog
         ++ [.resolverConfig, .dbusUuid, .auxFiles, .timezone, .pkgManagement,
             .makeBuildUser, .setupBuildDirs, .touchMarker, .postinit,
             .stateFinish])

/-- `Buildroot.initialize()`:
```
try:
    self._lock_buildroot(exclusive=True)
    self._init()
except BuildRootLocked:
    pass
finally:
    self._lock_buildroot(exclusive=False)
self._resetLogging()
```
The `finally` clause runs on both paths; if the shared acquisition it
performs itself raises `BuildRootLocked`, that exception propagates to
the caller and `_resetLogging` is not reached. -/
def initializeBuildroot (env : LockContention) (hook : Bool → Bool) (st : St) :
    St × List Action × Option Err :=
  match lock_buildroot env st true with
  | (st1, none) =>
      let (st2, tr) := init_buildroot hook st1
      match lock_buildroot env st2 false with
      | (st3, none) =>
          let (st4, trLog) := resetLogging st3
          (st4, tr ++ trLog, none)
      | (st3, some e) => (st3, tr, some e)
  | (st1, some _) =>
      match lock_buildroot env st1 false with
      | (st2, none) =>
          let (st3, trLog) := resetLogging st2
          (st3, trLog, none)
      | (st2, some e) => (st2, [], some e)

/-- `Buildroot.delete()`:
```
if os.path.exists(self.basedir):
    self._lock_buildroot(exclusive=True)
    util.orphansKill(self.make_chroot_path())
    self._umount_all()
    self._unlock_buildroot()
    util.rmtree(self.basedir, selinux=self.selinux)
self.chroot_was_initialized = False
```
A `BuildRootLocked` raised by the lock attempt propagates immediately:
the kill/unmount/remove sequence and the final flag reset are skipped. -/
def delete (env : LockContention) (st : St) : St × List Action × Option Err :=
  if st.basedirExists then
    match lock_buildroot env st true with
    | (st1, none) =>
        let st2 : St := { st1 with lockHeld := none, lockFileOpen := false }
        ({ st2 with basedirExists := false, markerPresent := false,
                    chroot_was_initialized := false },
         [.orphansKill, .umountAllMounts, .umountResidual, .rmtreeBase], none)
    | (st1, some e) => (st1, [], some e)
  else
    ({ st with chroot_was_initialized := false }, [], none)

/-- Run a sequence of `initialize()` calls on the same object, keeping
the state. -/
def runInits (hook : Bool → Bool) (envs : List LockContention) (st : St) : St :=
  envs.foldl (fun s e => (initializeBuildroot e hook s).1) st

/-! ## Privilege drop/restore regions

`uid_manager.dropPrivsTemp()` / `becomeUser(uid, gid)` push the current
effective identity on a saved stack and switch; `restorePrivs()` pops and
switches back.  Each region of `buildroot.py` that switches identity is
modelled as a function of the enclosed operation's outcome (a `Bool`
failure flag standing for "the enclosed operation raised"), following the
source's `try/finally` structure. -/

/-- Effective identity plus the stack of identities saved by temporary
drops. -/
structure PrivSt where
  current : Nat × Nat
  saved : List (Nat × Nat)
deriving DecidableEq

/-- `uid_manager.dropPrivsTemp()`: save the current identity and switch
to the unprivileged one. -/
def dropPrivsTemp (unpriv : Nat × Nat) (st : PrivSt) : PrivSt :=
  { current := unpriv, saved := st.current :: st.saved }

/-- `uid_manager.becomeUser(uid, gid)`: save the current identity and
switch to the given one. -/
def becomeUser (uid gid : Nat) (st : PrivSt) : PrivSt :=
  { current := (uid, gid), saved := st.current :: st.saved }

/-- `uid_manager.restorePrivs()`: pop the saved identity. -/
def restorePrivs (st : PrivSt) : PrivSt :=
  match st.saved with
  | [] => st
  | p :: r => { current := p, saved := r }

inductive SetupErr
  | resultDirNotAccessible
  | osError
  | genericError
deriving DecidableEq

/-- The privilege region of `Buildroot._setup_dirs()`: the skeleton
directories are created with the current identity, then the result
directory is created under `dropPrivsTemp` inside
`try/except Error/finally restorePrivs`; a failure is re-raised as
`ResultDirNotAccessible` after privileges are restored. -/
def setup_dirs_priv (unpriv : Nat × Nat) (mkResultdirFails : Bool)
    (st : PrivSt) : PrivSt × Option SetupErr :=
  let st1 := dropPrivsTemp unpriv st
  if mkResultdirFails then (restorePrivs st1, some .resultDirNotAccessible)
  else (restorePrivs st1, none)

/-- The privilege region of `Buildroot._setup_build_dirs()`: directory
creation, the ownership walk and the `.rpmmacros` write run under
`dropPrivsTemp` inside `try/finally restorePrivs`. -/
def setup_build_dirs_priv (unpriv : Nat × Nat) (bodyFails : Bool)
    (st : PrivSt) : PrivSt × Option SetupErr :=
  let st1 := dropPrivsTemp unpriv st
  if bodyFails then (restorePrivs st1, some .genericError)
  else (restorePrivs st1, none)

/-- The privilege region of `Buildroot._resetLogging()`: when the
handlers still need attaching, the attachment loop runs under
`dropPrivsTemp` inside `try/finally restorePrivs`. -/
def resetLogging_priv (unpriv : Nat × Nat)
    (loggingInitialized attachFails : Bool) (st : PrivSt) :
    PrivSt × Option SetupErr :=
  if loggingInitialized then (st, none)
  else
    let st1 := dropPrivsTemp unpriv st
    if attachFails then (restorePrivs st1, some .genericError)
    else (restorePrivs st1, none)

/-- The privilege region of `Buildroot._nuke_rpm_db()`: if no
`var/lib/rpm/__db*` files match, return without switching; otherwise
`becomeUser(0, 0)`, unlink each file inside `try/finally restorePrivs`,
re-raising a logged `OSError`. -/
def nuke_rpm_db_priv (dbfilesPresent unlinkFails : Bool) (st : PrivSt) :
    PrivSt × Option SetupErr :=
  if dbfilesPresent then
    let st1 := becomeUser 0 0 st
    if unlinkFails then (restorePrivs st1, some .osError)
    else (restorePrivs st1, none)
  else (st, none)

end Buildroot

namespace Buildroot

/-! ## Build-user account enabling (`_enable_chrootuser_account`)

Python source:
```
passwd = self.make_chroot_path('/etc/passwd')
lines = open(passwd).readlines()
disabled = False
newlines = []
for l in lines:
    parts = l.strip().split(':')
    if parts[0] == self.chrootuser and parts[1].startswith('!!'):
        disabled = True
        parts[1] = parts[1][2:]
    newlines.append(':'.join(parts))
if disabled:
    f = open(passwd, "w")
    for l in newlines:
        f.write(l+'\n')
    f.close()
```
The file is modelled as the list of lines `readlines()` returns (each
line still carrying its trailing newline).  `parts[1]` on a line whose
first field equals the user but which has no `:` raises `IndexError`,
modelled as `none`. -/

/-- One iteration of the loop body: whether this line set `disabled`,
and the string appended to `newlines`. -/
def processLine (user l : String) : Option (Bool × String) :=
  match strSplit (pyStrip l) ':' with
  | [] => some (false, strJoin ':' [])
  | [p0] => if p0 = user then none else some (false, strJoin ':' [p0])
  | p0 :: p1 :: rest =>
      if p0 = user && strStartsWith p1 "!!" then
        some (true, strJoin ':' (p0 :: strDrop p1 2 :: rest))
      else some (false, strJoin ':' (p0 :: p1 :: rest))

/-- The whole loop: the final `disabled` flag and `newlines`. -/
def enable_lines (user : String) : List String → Option (Bool × List String)
  | [] => some (false, [])
  | l :: ls =>
      match processLine user l with
      | none => none
      | some (d, nl) =>
          match enable_lines user ls with
          | none => none
          | some (ds, nls) => some (d || ds, nl :: nls)

/-- `Buildroot._enable_chrootuser_account()` as a function from the file
contents to (whether the file was rewritten, the resulting file
contents): when `disabled` was set, each of `newlines` is written with a
trailing newline; otherwise the file is left exactly as it was. -/
def enable_chrootuser_account (user : String) (fileLines : List String) :
    Option (Bool × List String) :=
  match enable_lines user fileLines with
  | none => none
  | some (true, nls) => some (true, nls.map (fun nl => nl ++ "\n"))
  | some (false, _) => some (false, fileLines)

end Buildroot

namespace Buildroot

/-! ## Residual-mount cleanup (`_umount_residual` / `_mount_is_ours`)

Python source:
```
def _mount_is_ours(self, mountpoint):
    mountpoint = os.path.realpath(mountpoint)
    our_dir = os.path.realpath(self.make_chroot_path()) + '/'
    assert our_dir and our_dir != '/'
    if mountpoint.startswith(our_dir):
        return True
    return False

def _umount_residual(self):
    mountpoints = open("/proc/mounts").read().strip().split("\n")
    for mountline in reversed(mountpoints):
        mountpoint = mountline.split()[1]
        if self._mount_is_ours(mountpoint):
            cmd = "umount -n -l %s" % mountpoint
            ...
            util.do(cmd, raiseExc=0, shell=True, env=self.env)
```
The mount table is modelled as the list of its lines; the modelled
`realpath` always returns a string beginning with `/`, so the `assert`
(`our_dir` non-empty and not `/`) never fires.  The result is the list
of mountpoints an `umount` is attempted for, in attempt order. -/

/-- `Buildroot._mount_is_ours(mountpoint)`. -/
def mount_is_ours (rootdir mountpoint : String) : Bool :=
  strStartsWith (realpath mountpoint) (realpath rootdir ++ "/")

/-- `mountline.split()[1]`: the mountpoint field of a `/proc/mounts`
line (such a line always has six fields). -/
def mountpointOf (line : String) : String :=
  (strSplitWS line).getD 1 ""

/-- `Buildroot._umount_residual()`: the mountpoints unmounted, in
order. -/
def umount_residual (rootdir : String) (mountLines : List String) :
    List String :=
  mountLines.reverse.filterMap (fun line =>
    let mp := mountpointOf line
    if mount_is_ours rootdir mp then some mp else none)

end Buildroot

namespace Buildroot

/-! ## Helper lemmas -/

/-- `os.path.join` only ever appends when its second argument is not
absolute. -/
theorem ospJoin_extend (a b : String) (h : strStartsWith b "/" = false) :
    ∃ t, ospJoin a b = a ++ t := by
  unfold ospJoin
  rw [h]
  by_cases ha : a = ""
  · exact ⟨b, by simp [ha, String.empty_append]⟩
  · by_cases he : strEndsWith a "/" = true
    · simp only [if_neg ha, he, if_pos, Bool.false_eq_true, if_false]
      exact ⟨b, rfl⟩
    · simp only [if_neg ha, he, Bool.false_eq_true, if_false]
      exact ⟨"/" ++ b, String.append_assoc a "/" b⟩

/-- The join fold of `make_chroot_path` textually extends its
accumulator as long as no stripped argument is still absolute. -/
theorem foldl_ospJoin_extend (paths : List String) :
    ∀ acc : String,
      (∀ p ∈ paths, strStartsWith (stripLeadingSlash p) "/" = false) →
      ∃ s, paths.foldl (fun acc p => ospJoin acc (stripLeadingSlash p)) acc
            = acc ++ s := by
  induction paths with
  | nil =>
      intro acc _
      exact ⟨"", (String.append_empty acc).symm⟩
  | cons p ps ih =>
      intro acc h
      obtain ⟨t, ht⟩ := ospJoin_extend acc (stripLeadingSlash p)
        (h p (by simp))
      obtain ⟨s, hs⟩ := ih (acc ++ t) (fun q hq => h q (by simp [hq]))
      refine ⟨t ++ s, ?_⟩
      simp only [List.foldl_cons, ht, hs, String.append_assoc]

end Buildroot

namespace Buildroot

/-! ## Claim C1 -/

/-- **C1, counterexample**: `make_chroot_path` does not resolve
parent-relative segments: for sandbox root `/sb/root` and argument
`../etc/passwd` it returns `/sb/root/../etc/passwd`, which the OS
resolves to `/sb/etc/passwd` — not under the sandbox root.  So the
claim that every in-sandbox path argument, including multi-segment
parent-relative ones, stays under the sandbox root is false. -/
theorem make_chroot_path_escape_counterexample :
    make_chroot_path "/sb/root" ["../etc/passwd"] = "/sb/root/../etc/passwd"
      ∧ realpath (make_chroot_path "/sb/root" ["../etc/passwd"])
          = "/sb/etc/passwd"
      ∧ resolvedUnder "/sb/root"
          (make_chroot_path "/sb/root" ["../etc/passwd"]) = false := by
  decide

/-- **C1, amended**: `make_chroot_path` only guarantees textual
containment: whenever every argument is still relative after the single
leading-slash strip, the returned string extends the sandbox root
textually; parent-relative `..` segments are passed through unresolved,
so the OS-resolved path may nevertheless lie outside the root. -/
theorem make_chroot_path_textual_containment (rootdir : String)
    (paths : List String)
    (h : ∀ p ∈ paths, strStartsWith (stripLeadingSlash p) "/" = false) :
    ∃ s, make_chroot_path rootdir paths = rootdir ++ s :=
  foldl_ospJoin_extend paths rootdir h

/-- Witness for `make_chroot_path_textual_containment` at the traversal
attempt of the claim. -/
theorem make_chroot_path_textual_containment_witness :
    ∃ s, make_chroot_path "/sb/root" ["../etc/passwd"] = "/sb/root" ++ s :=
  make_chroot_path_textual_containment "/sb/root" ["../etc/passwd"]
    (by decide)

/-! ## Claim C9 -/

/-- **C9**: a path component beginning with two slashes defeats the
leading-slash strip: only the first `/` of `//etc/passwd` is removed,
the remainder `/etc/passwd` is still absolute, `os.path.join` therefore
discards the accumulated sandbox root, and the result is an absolute
host path entirely outside the sandbox root (neither textually under it
nor under it after resolution). -/
theorem make_chroot_path_double_slash_escape :
    stripLeadingSlash "//etc/passwd" = "/etc/passwd"
      ∧ strStartsWith "/etc/passwd" "/" = true
      ∧ make_chroot_path "/sb/root" ["//etc/passwd"] = "/etc/passwd"
      ∧ strStartsWith "/etc/passwd" "/sb/root" = false
      ∧ resolvedUnder "/sb/root" "/etc/passwd" = false := by
  decide

end Buildroot

namespace Buildroot

def stTest : St :=
  { basedirExists := true, markerPresent := true, lockFileOpen := false,
    lockHeld := none, loggingInitialized := false, logAttachCount := 0,
    chroot_was_initialized := false }

/-! ## Claim C2 -/

/-- **C2, counterexample**: when the process that holds the lock holds
it exclusively, the exclusive attempt in `initialize()` fails with
`BuildRootLocked`, the handler swallows it — but the shared acquisition
performed by the `finally` clause fails too, and that second
`BuildRootLocked` propagates to the caller.  So "`initialize()` returns
normally whenever the exclusive lock attempt fails" is false. -/
theorem initialize_locked_raises_counterexample :
    exclAvail .otherExclusive = false
      ∧ (initializeBuildroot .otherExclusive (fun b => b) stTest).2.2
          = some .buildRootLocked := by
  decide

/-- **C2, amended**: when the exclusive lock attempt fails because the
other process holds a *shared* lock, `initialize()` skips all setup work
(the only action it may still perform is the log-handler attachment),
downgrades to a shared lock, and returns normally; when the other
process holds an *exclusive* lock, the shared acquisition in the
`finally` clause also fails and `BuildRootLocked` propagates, with no
setup work performed either. -/
theorem initialize_locked_degrades :
    (∀ (hook : Bool → Bool) (st : St),
        (initializeBuildroot .otherShared hook st).2.2 = none
        ∧ (initializeBuildroot .otherShared hook st).1.lockHeld
            = some .shared
        ∧ (∀ a ∈ (initializeBuildroot .otherShared hook st).2.1,
            a = Action.attachLogHandlers)
        ∧ (initializeBuildroot .otherShared hook st).1.markerPresent
            = st.markerPresent
        ∧ (initializeBuildroot .otherShared hook st).1.chroot_was_initialized
            = st.chroot_was_initialized)
    ∧ (∀ (hook : Bool → Bool) (st : St),
        st.lockHeld ≠ some LockMode.exclusive →
        (initializeBuildroot .otherExclusive hook st).2.2
            = some .buildRootLocked
        ∧ (initializeBuildroot .otherExclusive hook st).2.1 = []) := by
  constructor
  · intro hook st
    by_cases hL : st.loggingInitialized <;>
      simp [initializeBuildroot, lock_buildroot, exclAvail, sharedAvail,
        resetLogging, hL]
  · intro hook st hOwn
    simp [initializeBuildroot, lock_buildroot, exclAvail, sharedAvail, hOwn]

/-- Witness for `initialize_locked_degrades`: both contention modes at a
representative state holding no lock. -/
theorem initialize_locked_degrades_witness :
    (initializeBuildroot .otherShared (fun b => b) stTest).2.2 = none
      ∧ (initializeBuildroot .otherExclusive (fun b => b) stTest).2.2
          = some .buildRootLocked := by
  refine ⟨(initialize_locked_degrades.1 (fun b => b) stTest).1, ?_⟩
  exact (initialize_locked_degrades.2 (fun b => b) stTest (by decide)).1

/-! ## Claim C6 -/

/-- **C6**: when the exclusive lock attempt inside `delete()` fails
because another process holds the lock, `BuildRootLocked` propagates to
the caller and nothing is mutated on that path: no process kill, no
unmount, no base-directory removal (the action trace is empty), the
marker and base directory are untouched, and the
`chroot_was_initialized` flag — whose reset is the last statement of
`delete()` — is not reached.  The only residual state change is that the
lock file has been lazily opened by the failed lock attempt. -/
theorem delete_locked_propagates (env : LockContention) (st : St)
    (hb : st.basedirExists = true) (he : exclAvail env = false) :
    delete env st = ({ st with lockFileOpen := true }, [],
        some .buildRootLocked)
      ∧ (delete env st).1.basedirExists = st.basedirExists
      ∧ (delete env st).1.markerPresent = st.markerPresent
      ∧ (delete env st).1.lockHeld = st.lockHeld
      ∧ (delete env st).1.chroot_was_initialized
          = st.chroot_was_initialized := by
  cases st
  cases env <;> simp_all [delete, lock_buildroot, exclAvail]

/-! ## Claim C3 -/

/-- The action trace of `_init` when the marker file is present after the
`preinit` hook: device re-creation and the external `Mounts` bind only,
then the marker touch and the closing hook/phase. -/
def reentryTrace : List Action :=
  [.umountResidual, .stateStart, .preinit, .setupDevices, .mountAll,
   .touchMarker, .postinit, .stateFinish]

/-- Only an uncontended lock admits an exclusive acquisition. -/
theorem exclAvail_eq (e : LockContention) (h : exclAvail e = true) :
    e = .free := by
  cases e <;> simp_all [exclAvail]

/-- On a fresh-setup or re-entry path that completes, `initialize()`
leaves the marker present and the log handlers attached. -/
theorem initializeBuildroot_free_marker (hook : Bool → Bool) (st : St)
    (e : LockContention) (he : exclAvail e = true) :
    (initializeBuildroot e hook st).1.markerPresent = true
      ∧ (initializeBuildroot e hook st).1.loggingInitialized = true := by
  cases e
  · by_cases hM : hook st.markerPresent <;>
      by_cases hL : st.loggingInitialized <;>
        simp [initializeBuildroot, lock_buildroot, exclAvail, sharedAvail,
          init_buildroot, resetLogging, hM, hL]
  · simp [exclAvail] at he
  · simp [exclAvail] at he

/-- **C3**: if the marker file is present when `_init` runs its branch
(that is, after the `preinit` hook), initialization performs exactly the
re-entry trace — device re-creation and the external `Mounts` bind, but
no directory setup, no dependency installation and no user bootstrap —
touches the single marker file exactly once, and finishes with the
marker present; consequently a second `initialize()` after a successful
first (under any preinit hooks that do not remove an existing marker)
performs exactly that re-entry trace and is idempotent on the marker. -/
theorem init_reentry_idempotent :
    (∀ (hook : Bool → Bool) (st : St), hook st.markerPresent = true →
        init_buildroot hook st
          = ({ st with markerPresent := true, chroot_was_initialized := true },
             reentryTrace))
    ∧ Action.setupDirs ∉ reentryTrace
    ∧ Action.pkgManagement ∉ reentryTrace
    ∧ Action.makeBuildUser ∉ reentryTrace
    ∧ reentryTrace.count Action.touchMarker = 1
    ∧ (∀ (e1 e2 : LockContention) (hook : Bool → Bool) (st : St),
        exclAvail e1 = true → exclAvail e2 = true → hook true = true →
        (initializeBuildroot e2 hook (initializeBuildroot e1 hook st).1).2.1
            = reentryTrace
        ∧ (initializeBuildroot e2 hook
            (initializeBuildroot e1 hook st).1).1.markerPresent = true) := by
  refine ⟨?_, by decide, by decide, by decide, by decide, ?_⟩
  · intro hook st hM
    simp [init_buildroot, reentryTrace, hM]
  · intro e1 e2 hook st h1 h2 hHook
    cases exclAvail_eq e1 h1
    cases exclAvail_eq e2 h2
    by_cases hM : hook st.markerPresent <;>
      by_cases hL : st.loggingInitialized <;>
        simp [initializeBuildroot, lock_buildroot, exclAvail, sharedAvail,
          init_buildroot, resetLogging, hM, hL, hHook, reentryTrace]

/-- Witness for `init_reentry_idempotent`: the fast path on a
marker-present state, and a second `initialize()` after a first. -/
theorem init_reentry_idempotent_witness :
    init_buildroot (fun b => b) stTest
        = ({ stTest with
              markerPresent := true
              chroot_was_initialized := true }, reentryTrace)
      ∧ (initializeBuildroot .free (fun b => b)
          (initializeBuildroot .free (fun b => b) stTest).1).2.1
          = reentryTrace := by
  refine ⟨init_reentry_idempotent.1 (fun b => b) stTest (by decide), ?_⟩
  exact (init_reentry_idempotent.2.2.2.2.2 .free .free (fun b => b) stTest
    (by decide) (by decide) rfl).1

/-! ## Claim C8 -/

/-- The invariant tying the logging flag to the number of times the
handler-attachment block has run. -/
def LogInv (st : St) : Prop :=
  (st.loggingInitialized = false ∧ st.logAttachCount = 0)
    ∨ (st.loggingInitialized = true ∧ st.logAttachCount = 1)

/-- One `initialize()` call preserves `LogInv`, and once the flag is
`true` it stays `true` with no further attachment. -/
theorem initializeBuildroot_LogInv (env : LockContention)
    (hook : Bool → Bool) (st : St) (h : LogInv st) :
    LogInv (initializeBuildroot env hook st).1 := by
  rcases h with ⟨h1, h2⟩ | ⟨h1, h2⟩ <;>
    cases env <;>
      by_cases hM : hook st.markerPresent <;>
        by_cases hO : st.lockHeld = some LockMode.exclusive <;>
          simp [initializeBuildroot, lock_buildroot, exclAvail, sharedAvail,
            init_buildroot, resetLogging, hM, hO, h1, h2, LogInv]

/-- Once the logging flag is set, a further `initialize()` keeps it set
and performs no further handler attachment. -/
theorem initializeBuildroot_logging_mono (env : LockContention)
    (hook : Bool → Bool) (st : St) (h : st.loggingInitialized = true) :
    (initializeBuildroot env hook st).1.loggingInitialized = true
      ∧ (initializeBuildroot env hook st).1.logAttachCount
          = st.logAttachCount := by
  cases env <;>
    by_cases hM : hook st.markerPresent <;>
      by_cases hO : st.lockHeld = some LockMode.exclusive <;>
        simp [initializeBuildroot, lock_buildroot, exclAvail, sharedAvail,
          init_buildroot, resetLogging, hM, hO, h]

/-- **C8**: starting from a fresh process (flag `false`, handlers never
attached), any sequence of `initialize()` calls — whatever the lock
contention each one meets — attaches the log handlers at most once, and
the `loggingInitialized` flag is `true` exactly when that single
attachment has happened; moreover once the flag is `true`, a further
`initialize()` keeps it `true` and attaches nothing. -/
theorem logging_initialized_once :
    (∀ (hook : Bool → Bool) (envs : List LockContention) (st : St),
        st.loggingInitialized = false → st.logAttachCount = 0 →
        (runInits hook envs st).logAttachCount ≤ 1
        ∧ ((runInits hook envs st).loggingInitialized = true
            ↔ (runInits hook envs st).logAttachCount = 1))
    ∧ (∀ (env : LockContention) (hook : Bool → Bool) (st : St),
        st.loggingInitialized = true → st.logAttachCount = 1 →
        (initializeBuildroot env hook st).1.loggingInitialized = true
        ∧ (initializeBuildroot env hook st).1.logAttachCount = 1) := by
  have key : ∀ (hook : Bool → Bool) (envs : List LockContention) (st : St),
      LogInv st → LogInv (runInits hook envs st) := by
    intro hook envs
    induction envs with
    | nil => intro st h; exact h
    | cons e es ih =>
        intro st h
        exact ih _ (initializeBuildroot_LogInv e hook st h)
  constructor
  · intro hook envs st h1 h2
    have h := key hook envs st (Or.inl ⟨h1, h2⟩)
    rcases h with ⟨ha, hb⟩ | ⟨ha, hb⟩ <;> simp [ha, hb]
  · intro env hook st h1 h2
    obtain ⟨ha, hb⟩ := initializeBuildroot_logging_mono env hook st h1
    exact ⟨ha, by rw [hb, h2]⟩

/-- Witness for `logging_initialized_once`: three `initialize()` calls
from a fresh process, one of them contended. -/
theorem logging_initialized_once_witness :
    (runInits (fun b => b) [.free, .otherShared, .free] stTest).logAttachCount
        ≤ 1
      ∧ ((runInits (fun b => b)
            [.free, .otherShared, .free] stTest).loggingInitialized = true
          ↔ (runInits (fun b => b)
              [.free, .otherShared, .free] stTest).logAttachCount = 1) :=
  logging_initialized_once.1 (fun b => b) [.free, .otherShared, .free] stTest
    (by decide) (by decide)

/-- Witness for `delete_locked_propagates` on a representative state
with the base directory present and a shared holder elsewhere. -/
theorem delete_locked_propagates_witness :
    delete .otherShared stTest = ({ stTest with lockFileOpen := true }, [],
        some .buildRootLocked)
      ∧ (delete .otherShared stTest).1.basedirExists = stTest.basedirExists
      ∧ (delete .otherShared stTest).1.markerPresent = stTest.markerPresent
      ∧ (delete .otherShared stTest).1.lockHeld = stTest.lockHeld
      ∧ (delete .otherShared stTest).1.chroot_was_initialized
          = stTest.chroot_was_initialized :=
  delete_locked_propagates .otherShared stTest (by decide) (by decide)

/-! ## Claim C7 -/

/-- **C7**: every region of `buildroot.py` that drops or switches the
process identity — the result-directory creation in `_setup_dirs`, the
build-directory setup in `_setup_build_dirs`, the handler attachment in
`_resetLogging`, and the rpm-db-lock removal in `_nuke_rpm_db` — restores
the prior identity (and the whole saved-identity stack) on every exit
path, whether the enclosed operation succeeds or raises. -/
theorem priv_regions_restore :
    ∀ (unpriv : Nat × Nat) (f1 f2 li f3 db f4 : Bool) (st : PrivSt),
      (setup_dirs_priv unpriv f1 st).1 = st
      ∧ (setup_build_dirs_priv unpriv f2 st).1 = st
      ∧ (resetLogging_priv unpriv li f3 st).1 = st
      ∧ (nuke_rpm_db_priv db f4 st).1 = st := by
  intro unpriv f1 f2 li f3 db f4 st
  cases st
  cases f1 <;> cases f2 <;> cases li <;> cases f3 <;> cases db <;>
    cases f4 <;>
      simp [setup_dirs_priv, setup_build_dirs_priv, resetLogging_priv,
        nuke_rpm_db_priv, dropPrivsTemp, becomeUser, restorePrivs]

/-! ## Claim C4 -/

/-- The canonical form of a path is never the empty string: it always
begins with the root `/`. -/
theorem realpath_length_pos (p : String) : 0 < (realpath p).data.length := by
  simp [realpath, String.data_append]

/-- **C4**: residual-mount cleanup attempts to unmount exactly the
mount-table entries whose canonicalized mountpoint extends the
canonicalized sandbox root followed by a separator, processed in reverse
listing order; an entry canonicalizing to the bare sandbox root, or to
`/`, is never attempted.  On the spec's synthetic table `/sb/a`,
`/sb/a/b`, `/sb/a/b/c` (listed in that order, sandbox root `/sb`), it
unmounts `c`, then `b`, then `a`. -/
theorem umount_residual_spec :
    (∀ (rootdir : String) (table : List String),
        umount_residual rootdir table
          = table.reverse.filterMap (fun line =>
              if strStartsWith (realpath (mountpointOf line))
                  (realpath rootdir ++ "/") then some (mountpointOf line)
              else none))
    ∧ (∀ (rootdir : String) (table : List String) (mp : String),
        mp ∈ umount_residual rootdir table →
        realpath mp ≠ realpath rootdir ∧ realpath mp ≠ "/")
    ∧ umount_residual "/sb"
        ["dev0 /sb/a ext4 rw 0 0", "dev1 /sb/a/b ext4 rw 0 0",
         "dev2 /sb/a/b/c ext4 rw 0 0"]
        = ["/sb/a/b/c", "/sb/a/b", "/sb/a"] := by
  refine ⟨fun rootdir table => rfl, ?_, by decide⟩
  intro rootdir table mp hmem
  simp only [umount_residual, List.mem_filterMap] at hmem
  obtain ⟨line, _, hf⟩ := hmem
  by_cases hc : mount_is_ours rootdir (mountpointOf line) = true
  case neg => simp [hc] at hf
  rw [if_pos hc] at hf
  have hmp : mp = mountpointOf line := (Option.some_inj.mp hf).symm
  subst hmp
  have hpref : (realpath rootdir ++ "/").data
      <+: (realpath (mountpointOf line)).data := by
    rw [← List.isPrefixOf_iff_prefix]
    exact hc
  have hlen := hpref.length_le
  rw [String.data_append] at hlen
  simp only [List.length_append] at hlen
  have hone : ("/" : String).data.length = 1 := by decide
  rw [hone] at hlen
  constructor
  · intro heq
    rw [heq] at hlen
    omega
  · intro heq
    rw [heq] at hlen
    have hpos := realpath_length_pos rootdir
    rw [hone] at hlen
    omega

/-- Witness for `umount_residual_spec`: the deepest entry of the
synthetic table is unmounted, and it is neither the bare root nor `/`. -/
theorem umount_residual_spec_witness :
    realpath "/sb/a/b/c" ≠ realpath "/sb" ∧ realpath "/sb/a/b/c" ≠ "/" :=
  umount_residual_spec.2.1 "/sb"
    ["dev0 /sb/a ext4 rw 0 0", "dev1 /sb/a/b ext4 rw 0 0",
     "dev2 /sb/a/b/c ext4 rw 0 0"] "/sb/a/b/c" (by decide)

/-! ## Claims C5 and C10: helper lemmas -/

/-- A line whose first field is not the build user is appended to
`newlines` as the colon-join of its stripped fields, and does not set
`disabled`. -/
theorem processLine_other (user l : String)
    (h : (strSplit (pyStrip l) ':').headD "" ≠ user) :
    processLine user l
      = some (false, strJoin ':' (strSplit (pyStrip l) ':')) := by
  cases hp : strSplit (pyStrip l) ':' with
  | nil => simp [processLine, hp]
  | cons p0 tl =>
      rw [hp] at h
      simp only [List.headD_cons] at h
      cases tl with
      | nil => simp [processLine, hp, h]
      | cons p1 rest => simp [processLine, hp, h]

/-- The loop over lines none of which belongs to the build user leaves
`disabled` unset and normalizes each line. -/
theorem enable_lines_nonuser (user : String) (ls : List String)
    (h : ∀ l ∈ ls, (strSplit (pyStrip l) ':').headD "" ≠ user) :
    enable_lines user ls
      = some (false,
          ls.map (fun l => strJoin ':' (strSplit (pyStrip l) ':'))) := by
  induction ls with
  | nil => simp [enable_lines]
  | cons l ls ih =>
      rw [enable_lines, processLine_other user l (h l (by simp)),
        ih (fun q hq => h q (by simp [hq]))]
      simp

/-- Prepending lines that do not belong to the build user to the loop's
input normalizes them and leaves the `disabled` outcome of the rest
unchanged. -/
theorem enable_lines_prepend (user : String) (pre tail : List String)
    (d : Bool) (nls : List String) :
    (∀ q ∈ pre, (strSplit (pyStrip q) ':').headD "" ≠ user) →
    enable_lines user tail = some (d, nls) →
    enable_lines user (pre ++ tail)
      = some (d,
          pre.map (fun q => strJoin ':' (strSplit (pyStrip q) ':')) ++ nls) := by
  induction pre with
  | nil =>
      intro _ htail
      simpa using htail
  | cons q qs ih =>
      intro hpre htail
      rw [List.cons_append, enable_lines,
        processLine_other user q (hpre q (by simp)),
        ih (fun r hr => hpre r (by simp [hr])) htail]
      simp

/-- The build user's disabled entry sets `disabled` and is appended with
the two marker characters removed from its second field. -/
theorem processLine_disabled (user l p1 : String) (rest : List String)
    (hl : strSplit (pyStrip l) ':' = user :: p1 :: rest)
    (hp1 : strStartsWith p1 "!!" = true) :
    processLine user l
      = some (true, strJoin ':' (user :: strDrop p1 2 :: rest)) := by
  simp [processLine, hl, hp1]

/-! ## Claim C5 -/

/-- **C5**: if the sandbox `/etc/passwd` consists of lines for other
users around one entry for the build user whose password field starts
with the disabled-account marker `!!`, then account enabling rewrites
the file, the build user's entry keeps its first field and all fields
after the password unchanged while exactly the two marker characters
are stripped from the password field, and every other line is carried
over (whitespace-normalized by the strip/join round trip, which is the
identity on canonical newline-terminated passwd lines). -/
theorem enable_account_strips_marker (user l p1 : String)
    (pre post : List String) (rest : List String)
    (hpre : ∀ q ∈ pre ++ post, (strSplit (pyStrip q) ':').headD "" ≠ user)
    (hl : strSplit (pyStrip l) ':' = user :: p1 :: rest)
    (hp1 : strStartsWith p1 "!!" = true) :
    enable_chrootuser_account user (pre ++ l :: post)
      = some (true,
          pre.map (fun q => strJoin ':' (strSplit (pyStrip q) ':') ++ "\n")
          ++ (strJoin ':' (user :: strDrop p1 2 :: rest) ++ "\n")
            :: post.map
                (fun q => strJoin ':' (strSplit (pyStrip q) ':') ++ "\n")) := by
  have hpost : enable_lines user post
      = some (false,
          post.map (fun q => strJoin ':' (strSplit (pyStrip q) ':'))) :=
    enable_lines_nonuser user post
      (fun q hq => hpre q (by simp [hq]))
  have hmid : enable_lines user (l :: post)
      = some (true,
          strJoin ':' (user :: strDrop p1 2 :: rest)
            :: post.map (fun q => strJoin ':' (strSplit (pyStrip q) ':'))) := by
    rw [enable_lines, processLine_disabled user l p1 rest hl hp1, hpost]
    simp
  have hall := enable_lines_prepend user pre (l :: post) true _
    (fun q hq => hpre q (by simp [hq])) hmid
  simp [enable_chrootuser_account, hall, Function.comp_def]

/-- Witness for `enable_account_strips_marker` on a two-line passwd file
with a disabled `mockbuild` entry. -/
theorem enable_account_strips_marker_witness :
    enable_chrootuser_account "mockbuild"
      ["root:x:0:0:root:/root:/bin/bash\n",
       "mockbuild:!!x:1000:1000::/builddir:/bin/bash\n"]
      = some (true,
          ["root:x:0:0:root:/root:/bin/bash"].map
              (fun q => strJoin ':' (strSplit (pyStrip q) ':') ++ "\n")
          ++ (strJoin ':'
                ("mockbuild" :: strDrop "!!x" 2
                  :: ["1000", "1000", "", "/builddir", "/bin/bash"]) ++ "\n")
            :: ([] : List String).map
                (fun q => strJoin ':' (strSplit (pyStrip q) ':') ++ "\n")) :=
  enable_account_strips_marker "mockbuild"
    "mockbuild:!!x:1000:1000::/builddir:/bin/bash\n" "!!x"
    ["root:x:0:0:root:/root:/bin/bash\n"] []
    ["1000", "1000", "", "/builddir", "/bin/bash"]
    (by decide) (by decide) (by decide)

/-! ## Claim C10 -/

/-- The string the loop body appends to `newlines` for one input line:
the line's stripped fields re-joined, with the marker removed when the
line is the build user's disabled entry. -/
def lineOut (user l : String) : String :=
  match strSplit (pyStrip l) ':' with
  | p0 :: p1 :: rest =>
      if p0 = user && strStartsWith p1 "!!" then
        strJoin ':' (p0 :: strDrop p1 2 :: rest)
      else strJoin ':' (p0 :: p1 :: rest)
  | parts => strJoin ':' parts

/-- The line neither carries the disabled marker for the build user nor
triggers the `IndexError` of a colon-less line whose sole field is the
build user. -/
def noMarker (user l : String) : Bool :=
  match strSplit (pyStrip l) ':' with
  | [] => true
  | [p0] => p0 != user
  | p0 :: p1 :: _ => !(p0 == user) || !(strStartsWith p1 "!!")

/-- A marker-free line is appended normalized and leaves `disabled`
unset. -/
theorem processLine_noMarker (user l : String)
    (h : noMarker user l = true) :
    processLine user l
      = some (false, strJoin ':' (strSplit (pyStrip l) ':')) := by
  cases hp : strSplit (pyStrip l) ':' with
  | nil => simp [processLine, hp]
  | cons p0 tl =>
      cases tl with
      | nil =>
          rw [noMarker, hp] at h
          simp only [bne_iff_ne, ne_eq, decide_eq_true_eq] at h
          simp [processLine, hp, h]
      | cons p1 rest =>
          rw [noMarker, hp] at h
          simp only [Bool.or_eq_true, Bool.not_eq_eq_eq_not, Bool.not_true,
            beq_eq_false_iff_ne, ne_eq, Bool.not_eq_true] at h
          rcases h with h | h
          · simp [processLine, hp, h]
          · by_cases hu : p0 = user <;> simp [processLine, hp, hu, h]

/-- A run of the loop over marker-free lines only. -/
theorem enable_lines_noMarker (user : String) (ls : List String) :
    (∀ l ∈ ls, noMarker user l = true) →
    enable_lines user ls
      = some (false,
          ls.map (fun l => strJoin ':' (strSplit (pyStrip l) ':'))) := by
  induction ls with
  | nil => intro _; simp [enable_lines]
  | cons l ls ih =>
      intro h
      rw [enable_lines, processLine_noMarker user l (h l (by simp)),
        ih (fun q hq => h q (by simp [hq]))]
      simp

/-- Whatever the loop body returns for a line, the appended string is
`lineOut`. -/
theorem processLine_snd (user l : String) (d : Bool) (s : String)
    (h : processLine user l = some (d, s)) : s = lineOut user l := by
  rw [processLine] at h
  rw [lineOut]
  cases hp : strSplit (pyStrip l) ':' with
  | nil =>
      rw [hp] at h
      simp at h
      simp [h]
  | cons p0 tl =>
      rw [hp] at h
      cases tl with
      | nil =>
          by_cases hu : p0 = user
          · simp [hu] at h
          · simp [hu] at h
            simp [h]
      | cons p1 rest =>
          by_cases hc : (p0 = user && strStartsWith p1 "!!") = true
          · simp [hc] at h ⊢
            exact h.2.symm
          · simp only [Bool.not_eq_true] at hc
            simp [hc] at h ⊢
            exact h.2.symm

/-- The loop body reports `disabled` only on the build user's entry whose
password field starts with the marker. -/
theorem processLine_true (user l : String) (s : String)
    (h : processLine user l = some (true, s)) :
    ∃ p1 rest, strSplit (pyStrip l) ':' = user :: p1 :: rest
      ∧ strStartsWith p1 "!!" = true := by
  rw [processLine] at h
  cases hp : strSplit (pyStrip l) ':' with
  | nil =>
      rw [hp] at h
      simp at h
  | cons p0 tl =>
      rw [hp] at h
      cases tl with
      | nil =>
          by_cases hu : p0 = user <;> simp [hu] at h
      | cons p1 rest =>
          by_cases hc : (p0 = user && strStartsWith p1 "!!") = true
          · rw [Bool.and_eq_true, decide_eq_true_eq] at hc
            obtain ⟨rfl, hst⟩ := hc
            exact ⟨p1, rest, rfl, hst⟩
          · simp only [Bool.not_eq_true] at hc
            simp [hc] at h

/-- Full characterization of one loop run: `newlines` is the per-line
`lineOut` image, and `disabled` is set only when some line is the build
user's marker-carrying entry. -/
theorem enable_lines_some (user : String) (ls : List String) :
    ∀ (d : Bool) (nls : List String),
      enable_lines user ls = some (d, nls) →
      nls = ls.map (lineOut user)
      ∧ (d = true → ∃ l ∈ ls, ∃ p1 rest,
          strSplit (pyStrip l) ':' = user :: p1 :: rest
          ∧ strStartsWith p1 "!!" = true) := by
  induction ls with
  | nil =>
      intro d nls h
      rw [enable_lines] at h
      obtain ⟨rfl, rfl⟩ : false = d ∧ ([] : List String) = nls := by
        simpa using h
      simp
  | cons l ls ih =>
      intro d nls h
      rw [enable_lines] at h
      cases hp : processLine user l with
      | none => rw [hp] at h; cases h
      | some dn =>
          obtain ⟨d1, nl⟩ := dn
          rw [hp] at h
          cases hrec : enable_lines user ls with
          | none => rw [hrec] at h; cases h
          | some dns =>
              obtain ⟨ds, nls1⟩ := dns
              rw [hrec] at h
              have h9 : some (d1 || ds, nl :: nls1) = some (d, nls) := h
              injection h9 with hpair
              obtain ⟨h1, h2⟩ := Prod.ext_iff.mp hpair
              subst h1
              subst h2
              obtain ⟨hmap, hex⟩ := ih ds nls1 hrec
              refine ⟨?_, ?_⟩
              · simp [hmap, processLine_snd user l d1 nl hp]
              · intro hd
                rcases Bool.or_eq_true _ _ |>.mp hd with h1 | h1
                · subst h1
                  obtain ⟨p1, rest, hsp, hst⟩ := processLine_true user l nl hp
                  exact ⟨l, by simp, p1, rest, hsp, hst⟩
                · obtain ⟨q, hq, p1, rest, hsp, hst⟩ := hex h1
                  exact ⟨q, by simp [hq], p1, rest, hsp, hst⟩

/-- **C10**: when no line of the sandbox `/etc/passwd` is a build-user
entry whose password field starts with `!!`, account enabling returns the
file unchanged, byte for byte — the rewrite branch is not taken; and
whenever the file *is* rewritten, some line was the build user's
marker-carrying entry and every output line is the whitespace-normalized
(stripped, re-joined, newline-terminated) image of the corresponding
input line. -/
theorem enable_account_frame :
    (∀ (user : String) (lines : List String),
        (∀ l ∈ lines, noMarker user l = true) →
        enable_chrootuser_account user lines = some (false, lines))
    ∧ (∀ (user : String) (lines out : List String),
        enable_chrootuser_account user lines = some (true, out) →
        (∃ l ∈ lines, ∃ p1 rest,
            strSplit (pyStrip l) ':' = user :: p1 :: rest
            ∧ strStartsWith p1 "!!" = true)
        ∧ out = lines.map (fun l => lineOut user l ++ "\n")) := by
  constructor
  · intro user lines h
    rw [enable_chrootuser_account, enable_lines_noMarker user lines h]
  · intro user lines out h
    rw [enable_chrootuser_account] at h
    cases henl : enable_lines user lines with
    | none => rw [henl] at h; cases h
    | some dns =>
        obtain ⟨d, nls⟩ := dns
        rw [henl] at h
        obtain ⟨hmap, hex⟩ := enable_lines_some user lines d nls henl
        cases d with
        | false => simp at h
        | true =>
            obtain rfl : nls.map (fun nl => nl ++ "\n") = out := by
              simpa using h
            exact ⟨hex rfl, by simp [hmap]⟩

/-- Witness for `enable_account_frame`: a passwd file whose build-user
entry is already enabled is returned untouched. -/
theorem enable_account_frame_witness :
    enable_chrootuser_account "mockbuild"
      ["root:x:0:0:root:/root:/bin/bash\n",
       "mockbuild:x:1000:1000::/builddir:/bin/bash\n"]
      = some (false,
          ["root:x:0:0:root:/root:/bin/bash\n",
           "mockbuild:x:1000:1000::/builddir:/bin/bash\n"]) :=
  enable_account_frame.1 "mockbuild"
    ["root:x:0:0:root:/root:/bin/bash\n",
     "mockbuild:x:1000:1000::/builddir:/bin/bash\n"] (by decide)

end Buildroot
